import Mathlib

/-! Verification of the invoice-extraction pipeline: a shallow embedding of the
amount reconciliation, validation scoring, date assignment, supplier
resolution and DTO assembly logic of the repository, with theorems about the
spec-level properties.  Monetary values are modelled as rationals (the code
uses exact `Decimal` arithmetic in the LLM path and floating point in the ML
path; the tolerance comparisons at stake are far from the rounding scale).
Optional values (`Optional[...]` fields, dictionary keys) are `Option`;
Python truthiness of numbers and strings is modelled explicitly.
-/

namespace OCR

/-- Python truthiness of an optional numeric value: `None` and `0` are falsy,
every other number is truthy. -/
def truthyQ : Option ℚ → Bool
  | none => false
  | some x => x != 0

/-- Python truthiness of an optional string: `None` and the empty string are
falsy. -/
def truthyStr : Option String → Bool
  | none => false
  | some s => s != ""

/-- Amounts dictionary built by `_llm_extract_amounts` in
`src/extraction/llm_enhanced_extractor.py`.  The possible keys are
`total_ht`, `tva`, `total_ttc` and `amount_generic`; a `none` field models an
absent key (values are only inserted when they parse and lie in
`[0.01, 999999.99]`, so a present key is never `None` in the source). -/
structure LlmAmounts where
  total_ht : Option ℚ
  tva : Option ℚ
  total_ttc : Option ℚ
  amount_generic : Option ℚ
  deriving DecidableEq, Repr

/-- Dictionary emptiness, the meaning of `if not amounts:` on the amounts
dictionary: no key is present at all. -/
def LlmAmounts.isEmptyDict (a : LlmAmounts) : Bool :=
  a.total_ht.isNone && a.tva.isNone && a.total_ttc.isNone && a.amount_generic.isNone

/-- Number of present fields among the monetary triple
(`total_ht`, `tva`, `total_ttc`). -/
def LlmAmounts.tripleCount (a : LlmAmounts) : Nat :=
  (if a.total_ht.isSome then 1 else 0) + (if a.tva.isSome then 1 else 0) +
    (if a.total_ttc.isSome then 1 else 0)

/-- Tail of `_llm_extract_amounts` (`llm_enhanced_extractor.py`, lines
279-296): deduce the missing member of the HT/VAT/TTC triple from the other
two by addition or subtraction; then the dead `amount_generic` branch (its
guard `not amounts and 'amount_generic' in amounts` is unsatisfiable); then
default `total_ttc` to `0.00` when the dictionary is empty. -/
def llm_deduce_missing_amounts (a : LlmAmounts) : LlmAmounts :=
  let a1 : LlmAmounts :=
    match a.total_ht, a.tva, a.total_ttc with
    | some h, some v, none => { a with total_ttc := some (h + v) }
    | some h, none, some t => { a with tva := some (t - h) }
    | none, some v, some t => { a with total_ht := some (t - v) }
    | _, _, _ => a
  let a2 : LlmAmounts :=
    if a1.isEmptyDict && a1.amount_generic.isSome then
      { a1 with total_ttc := a1.amount_generic }
    else a1
  if a2.isEmptyDict then { a2 with total_ttc := some 0 } else a2

/-- Amount-consistency step of `_intelligent_validation_and_correction`
(`llm_enhanced_extractor.py`, lines 455-463): when both `total_ht` and `tva`
are keys of the dictionary, `total_ttc` is overwritten with their sum
whenever it is missing or differs from it by more than 0.01. -/
def intelligent_validation_amounts (a : LlmAmounts) : LlmAmounts :=
  if a.isEmptyDict then a
  else
    match a.total_ht, a.tva with
    | some h, some v =>
      let calculated_ttc := h + v
      match a.total_ttc with
      | none => { a with total_ttc := some calculated_ttc }
      | some t =>
        if |t - calculated_ttc| > 1 / 100 then { a with total_ttc := some calculated_ttc }
        else a
    | _, _ => a

/-- The `Totals` Pydantic model of `src/api/models.py`: all four monetary
fields optional. -/
structure Totals where
  subtotal_excl_vat : Option ℚ
  total_vat : Option ℚ
  total_incl_vat : Option ℚ
  amount_due : Option ℚ
  deriving DecidableEq, Repr

/-- Function `_validate_amounts_consistency` of
`src/extraction/ml_enhanced_extractor.py` (lines 339-349): when all three
triple fields are truthy (present and non-zero) and `HT + VAT` differs from
the TTC by more than 0.01, `total_incl_vat` is overwritten with the sum. -/
def validate_amounts_consistency (t : Totals) : Totals :=
  if truthyQ t.subtotal_excl_vat && truthyQ t.total_vat && truthyQ t.total_incl_vat then
    let calculated_total := t.subtotal_excl_vat.getD 0 + t.total_vat.getD 0
    if |calculated_total - t.total_incl_vat.getD 0| > 1 / 100 then
      { t with total_incl_vat := some calculated_total }
    else t
  else t

/-- The `LineItem` Pydantic model of `src/api/models.py`. -/
structure LineItem where
  description : Option String
  quantity : Option ℚ
  unit_price : Option ℚ
  vat_rate : Option ℚ
  amount_excl_vat : Option ℚ
  vat_amount : Option ℚ
  amount_incl_vat : Option ℚ
  deriving DecidableEq, Repr

/-- The `Validation` Pydantic model of `src/api/models.py`, with its
defaults. -/
structure Validation where
  calculation_check : Bool := false
  required_fields_present : Bool := false
  data_quality_score : ℚ := 0
  deriving DecidableEq, Repr

/-- Line-item sum `sum(item.amount_excl_vat or 0 for item in line_items)`
from `_validate_data` (`data_extractor.py`): a missing (or zero) amount
contributes zero. -/
def calculated_subtotal (line_items : List LineItem) : ℚ :=
  (line_items.map (fun it => it.amount_excl_vat.getD 0)).sum

/-- Calculation check of `_validate_data` (`data_extractor.py`, lines
421-425): requires the totals object, a non-empty line-item list, a truthy
`subtotal_excl_vat`, and the line-item sum within 0.01 of it. -/
def basic_calculation_check (totals : Option Totals) (line_items : List LineItem) : Bool :=
  match totals with
  | some t =>
    if line_items.isEmpty then false
    else
      match t.subtotal_excl_vat with
      | some s => s != 0 && decide (|calculated_subtotal line_items - s| < 1 / 100)
      | none => false
  | none => false

/-- Required-fields check of `_validate_data` (`data_extractor.py`, line
428): `bool(totals and (totals.total_incl_vat or totals.amount_due))`.  The
invoice number is not consulted. -/
def basic_required_fields (totals : Option Totals) : Bool :=
  match totals with
  | some t => truthyQ t.total_incl_vat || truthyQ t.amount_due
  | none => false

/-- Function `_validate_data` of `src/extraction/data_extractor.py` (lines
417-442): calculation check, required-fields check, and the 0.4/0.3/0.3
weighted quality score. -/
def validate_data (totals : Option Totals) (line_items : List LineItem) : Validation :=
  let chk := basic_calculation_check totals line_items
  { calculation_check := chk
    required_fields_present := basic_required_fields totals
    data_quality_score :=
      (if totals.isSome then 4 / 10 else 0) +
        (if line_items.isEmpty then 0 else 3 / 10) + (if chk then 3 / 10 else 0) }

/-- Modelled from the spec for comparison with the code (spec section 4.5:
`required_fields_present = has(invoice_number) AND has(total_incl_vat OR
amount_due)`). -/
def required_fields_present_spec (hasInvoiceNumber : Bool) (totals : Option Totals) : Bool :=
  hasInvoiceNumber &&
    (match totals with
     | some t => t.total_incl_vat.isSome || t.amount_due.isSome
     | none => false)

/-- C1: for every amounts dictionary in which exactly two of the monetary
triple are present, `llm_deduce_missing_amounts` keeps the two present values
and fills the third by addition or subtraction, so that afterwards
`total_ht + tva` equals `total_ttc` within the 0.01 tolerance. -/
theorem llm_reconcile_fills_missing_third (a : LlmAmounts) (h2 : a.tripleCount = 2) :
    ∃ h v t,
      (llm_deduce_missing_amounts a).total_ht = some h ∧
      (llm_deduce_missing_amounts a).tva = some v ∧
      (llm_deduce_missing_amounts a).total_ttc = some t ∧
      |h + v - t| ≤ 1 / 100 ∧
      (a.total_ht = none ∨ a.total_ht = some h) ∧
      (a.tva = none ∨ a.tva = some v) ∧
      (a.total_ttc = none ∨ a.total_ttc = some t) := by
  obtain ⟨ht, tv, tc, ag⟩ := a
  cases ht with
  | none =>
    cases tv with
    | none => cases tc <;> simp [LlmAmounts.tripleCount] at h2
    | some v =>
      cases tc with
      | none => simp [LlmAmounts.tripleCount] at h2
      | some t =>
        exact ⟨t - v, v, t, rfl, rfl, rfl,
          by rw [show t - v + v - t = 0 by ring]; norm_num,
          Or.inl rfl, Or.inr rfl, Or.inr rfl⟩
  | some h =>
    cases tv with
    | none =>
      cases tc with
      | none => simp [LlmAmounts.tripleCount] at h2
      | some t =>
        exact ⟨h, t - h, t, rfl, rfl, rfl,
          by rw [show h + (t - h) - t = 0 by ring]; norm_num,
          Or.inr rfl, Or.inl rfl, Or.inr rfl⟩
    | some v =>
      cases tc with
      | none =>
        exact ⟨h, v, h + v, rfl, rfl, rfl,
          by rw [show h + v - (h + v) = 0 by ring]; norm_num,
          Or.inr rfl, Or.inr rfl, Or.inl rfl⟩
      | some t => simp [LlmAmounts.tripleCount] at h2

/-- Witness for C1 at the concrete dictionary with `total_ht = 100` and
`tva = 20` present and `total_ttc` missing. -/
theorem llm_reconcile_fills_missing_third_witness :
    (LlmAmounts.mk (some 100) (some 20) none none).tripleCount = 2 ∧
      ∃ h v t,
        (llm_deduce_missing_amounts ⟨some 100, some 20, none, none⟩).total_ht = some h ∧
        (llm_deduce_missing_amounts ⟨some 100, some 20, none, none⟩).tva = some v ∧
        (llm_deduce_missing_amounts ⟨some 100, some 20, none, none⟩).total_ttc = some t ∧
        |h + v - t| ≤ 1 / 100 ∧
        ((LlmAmounts.mk (some 100) (some 20) none none).total_ht = none ∨
          (LlmAmounts.mk (some 100) (some 20) none none).total_ht = some h) ∧
        ((LlmAmounts.mk (some 100) (some 20) none none).tva = none ∨
          (LlmAmounts.mk (some 100) (some 20) none none).tva = some v) ∧
        ((LlmAmounts.mk (some 100) (some 20) none none).total_ttc = none ∨
          (LlmAmounts.mk (some 100) (some 20) none none).total_ttc = some t) :=
  ⟨rfl, llm_reconcile_fills_missing_third ⟨some 100, some 20, none, none⟩ rfl⟩

/-- Counterexample for C2: at the triple `(100, 0, 120)` every field is
present and the sum is off by far more than 0.01, yet
`_validate_amounts_consistency` changes nothing, because Python truthiness
treats the zero VAT as absent. -/
theorem validate_amounts_consistency_zero_field_cex :
    ((Totals.mk (some 100) (some 0) (some 120) none).subtotal_excl_vat.isSome = true ∧
        (Totals.mk (some 100) (some 0) (some 120) none).total_vat.isSome = true ∧
        (Totals.mk (some 100) (some 0) (some 120) none).total_incl_vat.isSome = true) ∧
      |(100 : ℚ) + 0 - 120| > 1 / 100 ∧
      validate_amounts_consistency ⟨some 100, some 0, some 120, none⟩ =
        ⟨some 100, some 0, some 120, none⟩ ∧
      (validate_amounts_consistency ⟨some 100, some 0, some 120, none⟩).total_incl_vat ≠
        some (100 + 0) := by
  refine ⟨⟨rfl, rfl, rfl⟩, by norm_num, ?_, ?_⟩ <;>
    norm_num [validate_amounts_consistency, truthyQ]

/-- C2 (amended): for every triple with all three fields present and
non-zero (truthy) and inconsistent beyond 0.01,
`_validate_amounts_consistency` overwrites `total_incl_vat` with
`subtotal_excl_vat + total_vat` and leaves every other field unchanged. -/
theorem validate_amounts_consistency_overwrites_incl (t : Totals) (h v i : ℚ)
    (hh : t.subtotal_excl_vat = some h) (hv : t.total_vat = some v)
    (hi : t.total_incl_vat = some i) (hh0 : h ≠ 0) (hv0 : v ≠ 0) (hi0 : i ≠ 0)
    (hfar : |h + v - i| > 1 / 100) :
    validate_amounts_consistency t = { t with total_incl_vat := some (h + v) } := by
  have hb1 : (h != 0) = true := by simp [hh0]
  have hb2 : (v != 0) = true := by simp [hv0]
  have hb3 : (i != 0) = true := by simp [hi0]
  unfold validate_amounts_consistency
  rw [hh, hv, hi]
  simp only [truthyQ, Option.getD_some, hb1, hb2, hb3, Bool.and_self, if_true]
  rw [if_pos hfar]

/-- Witness for C2 (amended) at the concrete triple `(100, 50, 300)`. -/
theorem validate_amounts_consistency_overwrites_incl_witness :
    validate_amounts_consistency ⟨some 100, some 50, some 300, none⟩ =
      ⟨some 100, some 50, some (100 + 50), none⟩ :=
  validate_amounts_consistency_overwrites_incl ⟨some 100, some 50, some 300, none⟩
    100 50 300 rfl rfl rfl (by norm_num) (by norm_num) (by norm_num) (by norm_num)

/-- Counterexample for C5: on the empty amounts dictionary (zero fields of
the triple present) the reconciliation tail does not leave the absent fields
absent: it assigns the default `total_ttc = 0.00`. -/
theorem llm_deduce_defaults_ttc_cex :
    (LlmAmounts.mk none none none none).tripleCount = 0 ∧
      llm_deduce_missing_amounts ⟨none, none, none, none⟩ = ⟨none, none, some 0, none⟩ := by
  decide

/-- C5 (amended): when fewer than two of the triple are present, no
inference happens as long as at least one amount (possibly generic) was
found: the dictionary is returned unchanged.  When nothing at all was found,
`total_ttc` is set to the default `0.00`. -/
theorem llm_deduce_no_inference_when_fewer_than_two (a : LlmAmounts)
    (hlt : a.tripleCount < 2) :
    (a.isEmptyDict = false → llm_deduce_missing_amounts a = a) ∧
      (a.isEmptyDict = true → llm_deduce_missing_amounts a = { a with total_ttc := some 0 }) := by
  obtain ⟨ht, tv, tc, ag⟩ := a
  cases ht <;> cases tv <;> cases tc <;> cases ag <;>
    simp_all [LlmAmounts.tripleCount, llm_deduce_missing_amounts, LlmAmounts.isEmptyDict]

/-- Witness for C5 (amended) at a dictionary holding only `total_ht`. -/
theorem llm_deduce_no_inference_when_fewer_than_two_witness :
    (LlmAmounts.mk (some 5) none none none).tripleCount < 2 ∧
      llm_deduce_missing_amounts ⟨some 5, none, none, none⟩ = ⟨some 5, none, none, none⟩ :=
  ⟨by decide, (llm_deduce_no_inference_when_fewer_than_two ⟨some 5, none, none, none⟩
    (by decide)).1 rfl⟩

/-- Counterexample for C3: for the bare-total input (`amount_due = 1200`,
nothing else, no invoice number anywhere) the code reports
`required_fields_present = True`, while the spec formula
`has(invoice_number) AND has(total_incl_vat OR amount_due)` demands
`False`. -/
theorem basic_required_fields_ignores_invoice_number_cex :
    (validate_data (some ⟨none, none, none, some 1200⟩) []).required_fields_present = true ∧
      required_fields_present_spec false (some ⟨none, none, none, some 1200⟩) = false := by
  decide

/-- C3 (amended): `required_fields_present` is true exactly when the totals
object exists and carries a truthy (present, non-zero) `total_incl_vat` or
`amount_due`; the invoice number and the line items play no role. -/
theorem validate_data_required_fields_characterization (totals : Option Totals)
    (line_items : List LineItem) :
    (validate_data totals line_items).required_fields_present = true ↔
      ∃ t, totals = some t ∧
        (truthyQ t.total_incl_vat = true ∨ truthyQ t.amount_due = true) := by
  cases totals with
  | none => simp [validate_data, basic_required_fields]
  | some t =>
    simp only [validate_data, basic_required_fields, Bool.or_eq_true, Option.some.injEq]
    constructor
    · intro hor
      exact ⟨t, rfl, hor⟩
    · rintro ⟨t', ht', hor⟩
      cases ht'
      exact hor

/-- C9: whenever the basic validator reports `calculation_check = true`, the
totals object is present, the line-item list is non-empty, and the quality
score is the full `0.4 + 0.3 + 0.3 = 1`. -/
theorem basic_calculation_check_forces_full_score (totals : Option Totals)
    (line_items : List LineItem)
    (h : (validate_data totals line_items).calculation_check = true) :
    totals.isSome = true ∧ line_items ≠ [] ∧
      (validate_data totals line_items).data_quality_score = 1 := by
  have hc : basic_calculation_check totals line_items = true := h
  cases totals with
  | none => simp [basic_calculation_check] at hc
  | some t =>
    have hne : line_items.isEmpty = false := by
      cases he : line_items.isEmpty with
      | false => rfl
      | true => rw [basic_calculation_check, he] at hc; simp at hc
    refine ⟨rfl, ?_, ?_⟩
    · intro hnil
      rw [hnil] at hne
      simp at hne
    · simp only [validate_data, hc, hne, Option.isSome_some, if_true,
        Bool.false_eq_true, if_false]
      norm_num

/-- Witness for C9 at a totals object whose subtotal matches the single
line item exactly. -/
theorem basic_calculation_check_forces_full_score_witness :
    (validate_data (some ⟨some 100, none, none, none⟩)
        [⟨none, none, none, none, some 100, none, none⟩]).calculation_check = true ∧
      ((some (Totals.mk (some 100) none none none)).isSome = true ∧
        [(LineItem.mk none none none none (some 100) none none)] ≠ [] ∧
        (validate_data (some ⟨some 100, none, none, none⟩)
          [⟨none, none, none, none, some 100, none, none⟩]).data_quality_score = 1) :=
  ⟨by norm_num [validate_data, basic_calculation_check, calculated_subtotal],
    basic_calculation_check_forces_full_score
    (some ⟨some 100, none, none, none⟩)
    [⟨none, none, none, none, some 100, none, none⟩]
    (by norm_num [validate_data, basic_calculation_check, calculated_subtotal])⟩

/-- Calendar dates as produced by `datetime.date(year, month, day)`;
comparison of Python dates is lexicographic on the three components. -/
structure PyDate where
  year : ℕ
  month : ℕ
  day : ℕ
  deriving DecidableEq, Repr

/-- Python date order `a <= b`: lexicographic on (year, month, day). -/
def dateLe (a b : PyDate) : Prop :=
  a.year < b.year ∨ (a.year = b.year ∧
    (a.month < b.month ∨ (a.month = b.month ∧ a.day ≤ b.day)))

/-- Python date order `a < b`: strict lexicographic on (year, month, day). -/
def dateLt (a b : PyDate) : Prop :=
  a.year < b.year ∨ (a.year = b.year ∧
    (a.month < b.month ∨ (a.month = b.month ∧ a.day < b.day)))

instance (a b : PyDate) : Decidable (dateLe a b) := by
  unfold dateLe; exact inferInstance

instance (a b : PyDate) : Decidable (dateLt a b) := by
  unfold dateLt; exact inferInstance

theorem dateLe_refl (a : PyDate) : dateLe a a := by unfold dateLe; omega

theorem dateLe_trans {a b c : PyDate} (h1 : dateLe a b) (h2 : dateLe b c) : dateLe a c := by
  unfold dateLe at *; omega

theorem dateLe_of_not_dateLe {a b : PyDate} (h : ¬ dateLe a b) : dateLe b a := by
  unfold dateLe at *; omega

theorem dateLe_of_not_dateLt {a b : PyDate} (h : ¬ dateLt a b) : dateLe b a := by
  unfold dateLt dateLe at *; omega

/-- One step of the (stable) sort used to model Python `list.sort()` on
dates: insertion into a sorted list. -/
def insertDate (d : PyDate) : List PyDate → List PyDate
  | [] => [d]
  | x :: xs => if dateLe d x then d :: x :: xs else x :: insertDate d xs

/-- Model of Python `found_dates.sort()`: insertion sort by `dateLe`.
Since `dateLe` is a total order (antisymmetric on the date components), the
sorted list is uniquely determined, hence identical to the one produced by
Python. -/
def sortDates : List PyDate → List PyDate
  | [] => []
  | x :: xs => insertDate x (sortDates xs)

theorem mem_insertDate {y d : PyDate} {l : List PyDate} :
    y ∈ insertDate d l ↔ y = d ∨ y ∈ l := by
  induction l with
  | nil => simp [insertDate]
  | cons x xs ih =>
    unfold insertDate
    split
    · simp
    · simp [ih]
      tauto

theorem mem_sortDates {y : PyDate} {l : List PyDate} :
    y ∈ sortDates l ↔ y ∈ l := by
  induction l with
  | nil => simp [sortDates]
  | cons x xs ih => simp [sortDates, mem_insertDate, ih]

theorem length_insertDate (d : PyDate) (l : List PyDate) :
    (insertDate d l).length = l.length + 1 := by
  induction l with
  | nil => simp [insertDate]
  | cons x xs ih =>
    unfold insertDate
    split
    · simp
    · simp [ih]

theorem length_sortDates (l : List PyDate) : (sortDates l).length = l.length := by
  induction l with
  | nil => rfl
  | cons x xs ih => simp [sortDates, length_insertDate, ih]

theorem pairwise_insertDate {d : PyDate} {l : List PyDate}
    (h : l.Pairwise dateLe) : (insertDate d l).Pairwise dateLe := by
  induction l with
  | nil => simp [insertDate]
  | cons x xs ih =>
    rw [List.pairwise_cons] at h
    obtain ⟨hx, hxs⟩ := h
    unfold insertDate
    split
    · rename_i hle
      refine List.Pairwise.cons ?_ (List.Pairwise.cons hx hxs)
      intro y hy
      rcases List.mem_cons.mp hy with rfl | hy'
      · exact hle
      · exact dateLe_trans hle (hx y hy')
    · rename_i hnle
      refine List.Pairwise.cons ?_ (ih hxs)
      intro y hy
      rcases mem_insertDate.mp hy with rfl | hy'
      · exact dateLe_of_not_dateLe hnle
      · exact hx y hy'

theorem pairwise_sortDates (l : List PyDate) : (sortDates l).Pairwise dateLe := by
  induction l with
  | nil => simp [sortDates]
  | cons x xs ih => exact pairwise_insertDate ih

theorem sorted_head_le {x : PyDate} {xs : List PyDate}
    (h : (x :: xs).Pairwise dateLe) {y : PyDate} (hy : y ∈ x :: xs) : dateLe x y := by
  rcases List.mem_cons.mp hy with rfl | hy'
  · exact dateLe_refl y
  · exact (List.pairwise_cons.mp h).1 y hy'

theorem sorted_le_getLast {l : List PyDate} (h : l.Pairwise dateLe)
    {y : PyDate} (hy : y ∈ l) (hne : l ≠ []) : dateLe y (l.getLast hne) := by
  induction l with
  | nil => cases hy
  | cons x xs ih =>
    cases xs with
    | nil =>
      rcases List.mem_cons.mp hy with rfl | hy'
      · exact dateLe_refl y
      · cases hy'
    | cons z zs =>
      rw [List.getLast_cons (by simp)]
      rcases List.mem_cons.mp hy with rfl | hy'
      · exact dateLe_trans
          ((List.pairwise_cons.mp h).1 _ (List.getLast_mem (by simp)))
          (dateLe_refl _)
      · exact ih (List.pairwise_cons.mp h).2 hy' (by simp)

/-- Dates dictionary of `_llm_extract_dates` /
`_extract_dates_ml`: possible keys `invoice_date` and `due_date`. -/
structure DatesDict where
  invoice_date : Option PyDate
  due_date : Option PyDate
  deriving DecidableEq, Repr

/-- Date-assignment tail of `_llm_extract_dates`
(`llm_enhanced_extractor.py`, lines 232-242): the found dates are sorted;
the first (earliest) becomes the invoice date and, when more than one date
was found, the last (latest) becomes the due date.  With no date found the
invoice date defaults to today. -/
def llm_extract_dates_assign (found : List PyDate) (today : PyDate) : DatesDict :=
  if found.isEmpty then { invoice_date := some today, due_date := none }
  else
    { invoice_date := (sortDates found).head?
      due_date := if 1 < found.length then (sortDates found).getLast? else none }

/-- Date-assignment tail of `_extract_dates_ml`
(`ml_enhanced_extractor.py`, lines 286-294): the found dates are NOT sorted;
the first date in text order becomes the invoice date and the last found
becomes the due date. -/
def extract_dates_ml_assign (found : List PyDate) : DatesDict :=
  if found.isEmpty then { invoice_date := none, due_date := none }
  else
    { invoice_date := found.head?
      due_date := if 1 < found.length then found.getLast? else none }

/-- Date-correction step of `_intelligent_validation_and_correction`
(`llm_enhanced_extractor.py`, lines 466-471): when both dates are present
and the due date is strictly earlier than the invoice date, the due date is
reset to the invoice date. -/
def intelligent_validation_dates (d : DatesDict) : DatesDict :=
  match d.invoice_date, d.due_date with
  | some i, some u => if dateLt u i then { d with due_date := some i } else d
  | _, _ => d

/-- Counterexample for C7: the ML date extractor does not sort.  With the
dates 2025-12-31 and 2025-01-01 found in that text order, the chronologically
later date lands on the invoice date and the earlier one on the due date,
contradicting the claimed earlier-to-invoice assignment. -/
theorem extract_dates_ml_unsorted_cex :
    extract_dates_ml_assign [⟨2025, 12, 31⟩, ⟨2025, 1, 1⟩] =
      ⟨some ⟨2025, 12, 31⟩, some ⟨2025, 1, 1⟩⟩ ∧
      dateLt ⟨2025, 1, 1⟩ ⟨2025, 12, 31⟩ := by
  decide

/-- C7 (amended): in the LLM date extractor the found dates are sorted, so
with two or more dates the earliest is assigned to the invoice date and the
latest to the due date; the ML extractor instead assigns the first and last
dates in text order, which agrees with the claim only when the text order is
chronological. -/
theorem llm_dates_earliest_invoice_latest_due (found : List PyDate) (today : PyDate)
    (h2 : 2 ≤ found.length) :
    ∃ i u, (llm_extract_dates_assign found today).invoice_date = some i ∧
      (llm_extract_dates_assign found today).due_date = some u ∧
      i ∈ found ∧ u ∈ found ∧
      (∀ x ∈ found, dateLe i x) ∧ (∀ x ∈ found, dateLe x u) := by
  have hsne : sortDates found ≠ [] := by
    intro h
    have hl := length_sortDates found
    rw [h] at hl
    simp at hl
    omega
  obtain ⟨x, xs, hs⟩ := List.exists_cons_of_ne_nil hsne
  have hempty : found.isEmpty = false := by
    cases found with
    | nil => simp at h2
    | cons a l => rfl
  have hlen : 1 < found.length := by omega
  refine ⟨x, (sortDates found).getLast hsne, ?_, ?_, ?_, ?_, ?_, ?_⟩
  · simp [llm_extract_dates_assign, hempty, hs]
  · simp only [llm_extract_dates_assign, hempty, Bool.false_eq_true, if_false, hlen, if_true]
    exact List.getLast?_eq_getLast _ hsne
  · exact mem_sortDates.mp (hs ▸ List.mem_cons_self x xs)
  · exact mem_sortDates.mp (List.getLast_mem hsne)
  · intro y hy
    have hy' : y ∈ x :: xs := hs ▸ mem_sortDates.mpr hy
    exact sorted_head_le (hs ▸ pairwise_sortDates found) hy'
  · intro y hy
    exact sorted_le_getLast (pairwise_sortDates found) (mem_sortDates.mpr hy) hsne

/-- Witness for C7 (amended) at two concrete dates given in chronological
order. -/
theorem llm_dates_earliest_invoice_latest_due_witness :
    2 ≤ ([⟨2025, 1, 1⟩, ⟨2025, 3, 15⟩] : List PyDate).length ∧
      ∃ i u,
        (llm_extract_dates_assign [⟨2025, 1, 1⟩, ⟨2025, 3, 15⟩]
            ⟨2025, 1, 1⟩).invoice_date = some i ∧
        (llm_extract_dates_assign [⟨2025, 1, 1⟩, ⟨2025, 3, 15⟩]
            ⟨2025, 1, 1⟩).due_date = some u ∧
        i ∈ ([⟨2025, 1, 1⟩, ⟨2025, 3, 15⟩] : List PyDate) ∧
        u ∈ ([⟨2025, 1, 1⟩, ⟨2025, 3, 15⟩] : List PyDate) ∧
        (∀ x ∈ ([⟨2025, 1, 1⟩, ⟨2025, 3, 15⟩] : List PyDate), dateLe i x) ∧
        (∀ x ∈ ([⟨2025, 1, 1⟩, ⟨2025, 3, 15⟩] : List PyDate), dateLe x u) :=
  ⟨by decide, llm_dates_earliest_invoice_latest_due [⟨2025, 1, 1⟩, ⟨2025, 3, 15⟩]
    ⟨2025, 1, 1⟩ (by decide)⟩

/-- After the date-correction step, whenever both dates are present the
invoice date is at most the due date. -/
theorem intelligent_validation_dates_le (d : DatesDict) {i u : PyDate}
    (hi : (intelligent_validation_dates d).invoice_date = some i)
    (hu : (intelligent_validation_dates d).due_date = some u) : dateLe i u := by
  obtain ⟨di, du⟩ := d
  cases di with
  | none => cases du <;> simp [intelligent_validation_dates] at hi hu
  | some i0 =>
    cases du with
    | none => simp [intelligent_validation_dates] at hu
    | some u0 =>
      by_cases hlt : dateLt u0 i0
      · simp only [intelligent_validation_dates, if_pos hlt] at hi hu
        simp at hi hu
        subst hi
        subst hu
        exact dateLe_refl i0
      · simp only [intelligent_validation_dates, if_neg hlt] at hi hu
        simp at hi hu
        subst hi
        subst hu
        exact dateLe_of_not_dateLt hlt

/-- C10: composing the LLM date assignment with the intelligent-validation
correction, whenever both an invoice date and a due date are produced, the
invoice date is less than or equal to the due date. -/
theorem llm_path_invoice_date_le_due_date (found : List PyDate) (today : PyDate)
    (i u : PyDate)
    (hi : (intelligent_validation_dates
        (llm_extract_dates_assign found today)).invoice_date = some i)
    (hu : (intelligent_validation_dates
        (llm_extract_dates_assign found today)).due_date = some u) :
    dateLe i u :=
  intelligent_validation_dates_le _ hi hu

/-- Witness for C10 at two concrete dates. -/
theorem llm_path_invoice_date_le_due_date_witness :
    dateLe ⟨2025, 1, 1⟩ ⟨2025, 2, 2⟩ :=
  llm_path_invoice_date_le_due_date [⟨2025, 1, 1⟩, ⟨2025, 2, 2⟩] ⟨2025, 1, 1⟩
    ⟨2025, 1, 1⟩ ⟨2025, 2, 2⟩ (by decide) (by decide)

/-- The `Invoice` Pydantic model of `src/api/models.py`. -/
structure Invoice where
  number : Option String
  date : Option PyDate
  due_date : Option PyDate
  currency : Option String
  payment_terms : Option String
  deriving DecidableEq, Repr

/-- The `Supplier` Pydantic model of `src/api/models.py`; the address and
contact sub-objects, which the verified functions never look inside, are
modelled by their optional street and email strings. -/
structure Supplier where
  name : Option String
  address : Option String
  siret : Option String
  vat_number : Option String
  deriving DecidableEq, Repr

/-- The `Customer` Pydantic model of `src/api/models.py`. -/
structure Customer where
  name : Option String
  address : Option String
  customer_id : Option String
  deriving DecidableEq, Repr

/-- Function `_check_calculation_consistency` of `ml_enhanced_extractor.py`
(lines 384-391): true when the three triple fields are truthy and
`HT + VAT` is within 0.01 of the TTC; false otherwise, in particular when a
field is missing or zero. -/
def check_calculation_consistency (t : Totals) : Bool :=
  if truthyQ t.subtotal_excl_vat && truthyQ t.total_vat && truthyQ t.total_incl_vat then
    decide (|t.subtotal_excl_vat.getD 0 + t.total_vat.getD 0 - t.total_incl_vat.getD 0| ≤ 1 / 100)
  else false

/-- Check `data.invoice and data.invoice.number` of
`_calculate_ml_validation_score`. -/
def ml_check_invoice_number (invoice : Option Invoice) : Bool :=
  invoice.elim false fun i => truthyStr i.number

/-- Check `data.totals and data.totals.total_incl_vat` of
`_calculate_ml_validation_score`. -/
def ml_check_total_incl_vat (totals : Option Totals) : Bool :=
  totals.elim false fun t => truthyQ t.total_incl_vat

/-- Check `data.supplier and data.supplier.name` of
`_calculate_ml_validation_score`. -/
def ml_check_supplier_name (supplier : Option Supplier) : Bool :=
  supplier.elim false fun s => truthyStr s.name

/-- Check `data.invoice and data.invoice.date` of
`_calculate_ml_validation_score` (a date object is always truthy). -/
def ml_check_invoice_date (invoice : Option Invoice) : Bool :=
  invoice.elim false fun i => i.date.isSome

/-- Function `_calculate_ml_validation_score` of `ml_enhanced_extractor.py`
(lines 351-382): four presence checks at one point each,
`required_fields_present` when at least two pass, `data_quality_score` the
fraction of passing checks, and the calculation check run only when a totals
object exists. -/
def calculate_ml_validation_score (invoice : Option Invoice) (totals : Option Totals)
    (supplier : Option Supplier) : Validation :=
  let score : ℚ :=
    (if ml_check_invoice_number invoice then 1 else 0) +
      (if ml_check_total_incl_vat totals then 1 else 0) +
      (if ml_check_supplier_name supplier then 1 else 0) +
      (if ml_check_invoice_date invoice then 1 else 0)
  { required_fields_present := decide (2 ≤ score)
    data_quality_score := score / 4
    calculation_check := totals.elim false check_calculation_consistency }

/-- Field-presence extension on an optional value: the right side carries
the same value whenever the left side is present (adding a genuine field,
holding existing values fixed). -/
def optPresenceLe {α : Type} (x y : Option α) : Prop := x = none ∨ y = x

/-- Fieldwise presence extension on `Totals`. -/
def totalsPresenceLe (a b : Totals) : Prop :=
  optPresenceLe a.subtotal_excl_vat b.subtotal_excl_vat ∧
    optPresenceLe a.total_vat b.total_vat ∧
    optPresenceLe a.total_incl_vat b.total_incl_vat ∧
    optPresenceLe a.amount_due b.amount_due

/-- Presence extension on the optional totals object. -/
def optTotalsPresenceLe : Option Totals → Option Totals → Prop
  | none, _ => True
  | some _, none => False
  | some a, some b => totalsPresenceLe a b

/-- Presence extension on the line-item list: adding items where none
existed, or keeping the list unchanged. -/
def itemsPresenceLe (i j : List LineItem) : Prop := i = [] ∨ j = i

/-- Fieldwise presence extension on `Invoice`. -/
def invoicePresenceLe (a b : Invoice) : Prop :=
  optPresenceLe a.number b.number ∧ optPresenceLe a.date b.date ∧
    optPresenceLe a.due_date b.due_date ∧ optPresenceLe a.currency b.currency ∧
    optPresenceLe a.payment_terms b.payment_terms

/-- Presence extension on the optional invoice object. -/
def optInvoicePresenceLe : Option Invoice → Option Invoice → Prop
  | none, _ => True
  | some _, none => False
  | some a, some b => invoicePresenceLe a b

/-- Fieldwise presence extension on `Supplier`. -/
def supplierPresenceLe (a b : Supplier) : Prop :=
  optPresenceLe a.name b.name ∧ optPresenceLe a.address b.address ∧
    optPresenceLe a.siret b.siret ∧ optPresenceLe a.vat_number b.vat_number

/-- Presence extension on the optional supplier object. -/
def optSupplierPresenceLe : Option Supplier → Option Supplier → Prop
  | none, _ => True
  | some _, none => False
  | some a, some b => supplierPresenceLe a b

theorem indicator_mono {b1 b2 : Bool} {w : ℚ} (hw : 0 ≤ w)
    (h : b1 = true → b2 = true) :
    (if b1 then w else 0) ≤ (if b2 then w else 0) := by
  cases b1 with
  | false => cases b2 <;> simp [hw]
  | true =>
    have h2 := h rfl
    simp [h2]

theorem optPresenceLe_truthyStr {x y : Option String} (h : optPresenceLe x y)
    (hx : truthyStr x = true) : truthyStr y = true := by
  rcases h with rfl | h
  · simp [truthyStr] at hx
  · rw [h]; exact hx

theorem optPresenceLe_truthyQ {x y : Option ℚ} (h : optPresenceLe x y)
    (hx : truthyQ x = true) : truthyQ y = true := by
  rcases h with rfl | h
  · simp [truthyQ] at hx
  · rw [h]; exact hx

theorem optPresenceLe_isSome {α : Type} {x y : Option α} (h : optPresenceLe x y)
    (hx : x.isSome = true) : y.isSome = true := by
  rcases h with rfl | h
  · simp at hx
  · rw [h]; exact hx

theorem basic_calculation_check_eq_true_iff (totals : Option Totals)
    (items : List LineItem) :
    basic_calculation_check totals items = true ↔
      ∃ t s, totals = some t ∧ items ≠ [] ∧ t.subtotal_excl_vat = some s ∧
        s ≠ 0 ∧ |calculated_subtotal items - s| < 1 / 100 := by
  cases totals with
  | none => simp [basic_calculation_check]
  | some t =>
    cases items with
    | nil => simp [basic_calculation_check]
    | cons x xs =>
      cases hs : t.subtotal_excl_vat with
      | none => simp [basic_calculation_check, hs]
      | some s => simp [basic_calculation_check, hs]

theorem basic_calculation_check_mono {t1 t2 : Option Totals} {i1 i2 : List LineItem}
    (ht : optTotalsPresenceLe t1 t2) (hi : itemsPresenceLe i1 i2)
    (h : basic_calculation_check t1 i1 = true) :
    basic_calculation_check t2 i2 = true := by
  rw [basic_calculation_check_eq_true_iff] at h ⊢
  obtain ⟨t, s, htt, hne, hsub, hs0, hcl⟩ := h
  subst htt
  cases t2 with
  | none => exact absurd ht (by simp [optTotalsPresenceLe])
  | some b =>
    obtain ⟨hfst, _, _, _⟩ := ht
    have hbs : b.subtotal_excl_vat = some s := by
      rcases hfst with hnone | hbs
      · rw [hsub] at hnone; cases hnone
      · rw [hsub] at hbs; exact hbs
    rcases hi with hnil | heq
    · exact absurd hnil hne
    · subst heq
      exact ⟨b, s, rfl, hne, hbs, hs0, hcl⟩

theorem ml_check_invoice_number_mono {x y : Option Invoice}
    (h : optInvoicePresenceLe x y) (hx : ml_check_invoice_number x = true) :
    ml_check_invoice_number y = true := by
  cases x with
  | none => simp [ml_check_invoice_number] at hx
  | some a =>
    cases y with
    | none => exact absurd h (by simp [optInvoicePresenceLe])
    | some b => exact optPresenceLe_truthyStr h.1 hx

theorem ml_check_total_incl_vat_mono {x y : Option Totals}
    (h : optTotalsPresenceLe x y) (hx : ml_check_total_incl_vat x = true) :
    ml_check_total_incl_vat y = true := by
  cases x with
  | none => simp [ml_check_total_incl_vat] at hx
  | some a =>
    cases y with
    | none => exact absurd h (by simp [optTotalsPresenceLe])
    | some b => exact optPresenceLe_truthyQ h.2.2.1 hx

theorem ml_check_supplier_name_mono {x y : Option Supplier}
    (h : optSupplierPresenceLe x y) (hx : ml_check_supplier_name x = true) :
    ml_check_supplier_name y = true := by
  cases x with
  | none => simp [ml_check_supplier_name] at hx
  | some a =>
    cases y with
    | none => exact absurd h (by simp [optSupplierPresenceLe])
    | some b => exact optPresenceLe_truthyStr h.1 hx

theorem ml_check_invoice_date_mono {x y : Option Invoice}
    (h : optInvoicePresenceLe x y) (hx : ml_check_invoice_date x = true) :
    ml_check_invoice_date y = true := by
  cases x with
  | none => simp [ml_check_invoice_date] at hx
  | some a =>
    cases y with
    | none => exact absurd h (by simp [optInvoicePresenceLe])
    | some b => exact optPresenceLe_isSome h.2.1 hx

/-- C8: the quality score is monotone in field presence, in both scoring
modes.  Basic mode: adding the totals object, adding line items where none
existed, or adding a field inside the totals never decreases the
0.4/0.3/0.3 score.  Enriched ML mode: adding any of the four counted fields
never decreases the fraction-of-four score. -/
theorem data_quality_score_monotone :
    (∀ (t1 t2 : Option Totals) (i1 i2 : List LineItem),
        optTotalsPresenceLe t1 t2 → itemsPresenceLe i1 i2 →
        (validate_data t1 i1).data_quality_score ≤
          (validate_data t2 i2).data_quality_score) ∧
      (∀ (inv1 inv2 : Option Invoice) (tot1 tot2 : Option Totals)
          (sup1 sup2 : Option Supplier),
        optInvoicePresenceLe inv1 inv2 → optTotalsPresenceLe tot1 tot2 →
          optSupplierPresenceLe sup1 sup2 →
        (calculate_ml_validation_score inv1 tot1 sup1).data_quality_score ≤
          (calculate_ml_validation_score inv2 tot2 sup2).data_quality_score) := by
  constructor
  · intro t1 t2 i1 i2 ht hi
    simp only [validate_data]
    have hterm1 : ((if t1.isSome then (4 : ℚ) / 10 else 0)) ≤
        (if t2.isSome then (4 : ℚ) / 10 else 0) := by
      apply indicator_mono (by norm_num)
      intro h1
      cases t1 with
      | none => simp at h1
      | some a =>
        cases t2 with
        | none => exact absurd ht (by simp [optTotalsPresenceLe])
        | some b => rfl
    have hterm2 : ((if i1.isEmpty then (0 : ℚ) else 3 / 10)) ≤
        (if i2.isEmpty then (0 : ℚ) else 3 / 10) := by
      rcases hi with rfl | rfl
      · simp
        split <;> norm_num
      · exact le_refl _
    have hterm3 : ((if basic_calculation_check t1 i1 then (3 : ℚ) / 10 else 0)) ≤
        (if basic_calculation_check t2 i2 then (3 : ℚ) / 10 else 0) :=
      indicator_mono (by norm_num) (basic_calculation_check_mono ht hi)
    exact add_le_add (add_le_add hterm1 hterm2) hterm3
  · intro inv1 inv2 tot1 tot2 sup1 sup2 hinv htot hsup
    simp only [calculate_ml_validation_score]
    apply (div_le_div_iff_of_pos_right (by norm_num : (0 : ℚ) < 4)).mpr
    refine add_le_add (add_le_add (add_le_add ?_ ?_) ?_) ?_
    · exact indicator_mono (by norm_num) (ml_check_invoice_number_mono hinv)
    · exact indicator_mono (by norm_num) (ml_check_total_incl_vat_mono htot)
    · exact indicator_mono (by norm_num) (ml_check_supplier_name_mono hsup)
    · exact indicator_mono (by norm_num) (ml_check_invoice_date_mono hinv)

/-- Witness for C8: adding a totals object with a total where none existed
in the basic scorer, and adding a supplier name in the enriched scorer. -/
theorem data_quality_score_monotone_witness :
    ((validate_data none []).data_quality_score ≤
        (validate_data (some ⟨none, none, some 1, none⟩) []).data_quality_score) ∧
      ((calculate_ml_validation_score none none none).data_quality_score ≤
        (calculate_ml_validation_score none none
          (some ⟨some "A", none, none, none⟩)).data_quality_score) :=
  ⟨data_quality_score_monotone.1 none (some ⟨none, none, some 1, none⟩) [] []
      trivial (Or.inl rfl),
    data_quality_score_monotone.2 none none none none none
      (some ⟨some "A", none, none, none⟩) trivial trivial trivial⟩

/-- Whitespace in the sense of Python regular expressions and string
methods (ASCII part): space, tab, newline, carriage return, vertical tab,
form feed. -/
def pyIsSpace (c : Char) : Bool :=
  c == ' ' || c == '\t' || c == '\n' || c == '\r' || c == '\x0b' || c == '\x0c'

/-- ASCII uppercase letter, the character class `[A-Z]`. -/
def isUpperAZ (c : Char) : Bool := 'A' ≤ c && c ≤ 'Z'

/-- ASCII letter, the character class `[A-Za-z]`. -/
def isAlphaAscii (c : Char) : Bool := isUpperAZ c || ('a' ≤ c && c ≤ 'z')

/-- Word character of the regex `\b` boundary (`\w`, ASCII part). -/
def isWordChar (c : Char) : Bool := c.isAlphanum || c == '_'

/-- Lower-casing a character list, modelling case-insensitive matching. -/
def lowerList (l : List Char) : List Char := l.map Char.toLower

/-- Check that the first list is a prefix of the second. -/
def listStartsWith : List Char → List Char → Bool
  | [], _ => true
  | _ :: _, [] => false
  | n :: ns, h :: hs => n == h && listStartsWith ns hs

/-- Substring search: does the needle occur inside the haystack at any
position (the meaning of `re.search` with an escaped, hence literal,
pattern)? -/
def containsSub (needle : List Char) : List Char → Bool
  | [] => listStartsWith needle []
  | c :: rest => listStartsWith needle (c :: rest) || containsSub needle rest

/-- Case-insensitive substring search, the meaning of
`re.search(re.escape(name), text, re.IGNORECASE)`. -/
def containsCI (needle hay : List Char) : Bool :=
  containsSub (lowerList needle) (lowerList hay)

/-- Word-character test on an optional character; a missing character (text
boundary) counts as a non-word character. -/
def wordCharOpt : Option Char → Bool
  | none => false
  | some c => isWordChar c

/-- Regex word boundary `\b` between two (optional) adjacent characters:
exactly one side is a word character. -/
def boundaryOk (a b : Option Char) : Bool := wordCharOpt a != wordCharOpt b

/-- Match of the pattern `\b<word>\b` at the current position, given the
previous character. -/
def wordMatchHere (w : List Char) (prev : Option Char) (l : List Char) : Bool :=
  listStartsWith w l && boundaryOk prev l.head? &&
    boundaryOk (if w.isEmpty then prev else w.getLast?) ((l.drop w.length).head?)

/-- Scan of `\b<word>\b` over every position of the text. -/
def wordSearchAux (w : List Char) : Option Char → List Char → Bool
  | prev, [] => wordMatchHere w prev []
  | prev, c :: rest => wordMatchHere w prev (c :: rest) || wordSearchAux w (some c) rest

/-- Case-insensitive `re.search` of `\b<word>\b`, as used for the first
supplier word. -/
def wordSearchCI (w text : List Char) : Bool :=
  wordSearchAux (lowerList w) none (lowerList text)

/-- Helper of `pySplit`: accumulate the current chunk (reversed) while
walking the text. -/
def pySplitAux (cur : List Char) : List Char → List (List Char)
  | [] => if cur.isEmpty then [] else [cur.reverse]
  | c :: rest =>
    if pyIsSpace c then
      if cur.isEmpty then pySplitAux [] rest else cur.reverse :: pySplitAux [] rest
    else pySplitAux (c :: cur) rest

/-- Python `str.split()` with no argument: split on whitespace runs,
discarding empty chunks. -/
def pySplit (l : List Char) : List (List Char) := pySplitAux [] l

/-- Python `str.strip()`: drop leading and trailing whitespace. -/
def pyStrip (l : List Char) : List Char :=
  ((l.dropWhile pyIsSpace).reverse.dropWhile pyIsSpace).reverse

/-- Store-matching loop of `_find_supplier_in_text`
(`llm_enhanced_extractor.py`, lines 340-355): for each active supplier name
of more than 3 characters, first a case-insensitive literal search of the
full name, then a case-insensitive word-boundary search of its first word;
the first supplier that matches is returned. -/
def supplier_store_match : List String → String → Option String
  | [], _ => none
  | name :: rest, text =>
    if name != "" && decide (3 < name.length) then
      if containsCI name.toList text.toList then some name
      else
        match (pySplit name.toList).take 2 with
        | w :: _ =>
          if wordSearchCI w text.toList then some name
          else supplier_store_match rest text
        | [] => supplier_store_match rest text
    else supplier_store_match rest text

/-- Keyword alternatives of the first generic supplier pattern
`(?:De|From|Fournisseur|Supplier)`; no alternative is a prefix of another at
any shared position, so at most one can match at a given index. -/
def genericKw : List (List Char) :=
  [String.toList "De", String.toList "From", String.toList "Fournisseur",
    String.toList "Supplier"]

/-- Character class `[\s:]` of the first generic pattern. -/
def classSepOrColon (c : Char) : Bool := pyIsSpace c || c == ':'

/-- Character class `[A-Za-z\s&]` of the generic supplier-name group. -/
def classBody (c : Char) : Bool := isAlphaAscii c || pyIsSpace c || c == '&'

/-- Match of the first generic pattern
`(?:De|From|Fournisseur|Supplier)[\s:]+([A-Z][A-Za-z\s&]{5,30})` anchored at
the current position, returning the captured group.  The classes `[\s:]`
and `[A-Z]` are disjoint, so the greedy separator run needs no
backtracking; the group is greedy with nothing after it. -/
def pattern1Here (l : List Char) : Option (List Char) :=
  match genericKw.find? (fun kw => listStartsWith kw l) with
  | none => none
  | some kw =>
    let rest := l.drop kw.length
    let sepLen := (rest.takeWhile classSepOrColon).length
    if sepLen = 0 then none
    else
      match rest.drop sepLen with
      | [] => none
      | c :: rest2 =>
        if isUpperAZ c then
          let body := (rest2.takeWhile classBody).take 30
          if 5 ≤ body.length then some (c :: body) else none
        else none

/-- Suffix alternatives `(?:SA|SARL|SAS|AG|GmbH)` of the second generic
pattern. -/
def suffixKw : List (List Char) :=
  [String.toList "SA", String.toList "SARL", String.toList "SAS",
    String.toList "AG", String.toList "GmbH"]

/-- Completion test for the second generic pattern after the captured
group: `\s+` followed by a legal-form keyword.  None of the keywords starts
with whitespace, so only the maximal whitespace run can precede a match. -/
def pattern2Completion (l : List Char) : Bool :=
  let m := (l.takeWhile pyIsSpace).length
  if m = 0 then false
  else suffixKw.any (fun kw => listStartsWith kw (l.drop m))

/-- Backtracking over the greedy group length of the second generic
pattern, from the given maximal candidate length downwards (regex semantics:
the longest group that still allows the suffix to match wins). -/
def pattern2Try (c : Char) (rest : List Char) : Nat → Option (List Char)
  | 0 => none
  | n + 1 =>
    if 5 ≤ n + 1 && pattern2Completion (rest.drop (n + 1)) then
      some (c :: rest.take (n + 1))
    else pattern2Try c rest n

/-- Match of the second generic pattern
`([A-Z][A-Za-z\s&]{5,30})\s+(?:SA|SARL|SAS|AG|GmbH)` anchored at the
current position, returning the captured group. -/
def pattern2Here (l : List Char) : Option (List Char) :=
  match l with
  | [] => none
  | c :: rest =>
    if isUpperAZ c then
      pattern2Try c rest (min 30 ((rest.takeWhile classBody).length))
    else none

/-- Leftmost-match scan of an anchored matcher over all positions of the
text (the position order of `re.findall`). -/
def scanOption (f : List Char → Option (List Char)) : List Char → Option (List Char)
  | [] => f []
  | c :: rest =>
    match f (c :: rest) with
    | some g => some g
    | none => scanOption f rest

/-- First capture of the first generic supplier pattern over the whole
text. -/
def pattern1Find (text : List Char) : Option (List Char) := scanOption pattern1Here text

/-- First capture of the second generic supplier pattern over the whole
text. -/
def pattern2Find (text : List Char) : Option (List Char) := scanOption pattern2Here text

/-- Generic-pattern loop of `_find_supplier_in_text` (lines 357-368): the
two patterns are tried in order and the first capture, stripped, is
returned. -/
def find_supplier_generic (text : List Char) : Option (List Char) :=
  match pattern1Find text with
  | some g => some (pyStrip g)
  | none =>
    match pattern2Find text with
    | some g => some (pyStrip g)
    | none => none

/-- Function `_find_supplier_in_text` of `llm_enhanced_extractor.py`
(lines 338-370): store match first, then generic patterns, then the
sentinel `"Fournisseur Inconnu"`. -/
def find_supplier_in_text (suppliers : List String) (text : String) : String :=
  match supplier_store_match suppliers text with
  | some name => name
  | none =>
    match find_supplier_generic text.toList with
    | some g => String.mk g
    | none => "Fournisseur Inconnu"

theorem supplier_store_match_ne_empty {suppliers : List String} {text n : String}
    (h : supplier_store_match suppliers text = some n) : n ≠ "" := by
  induction suppliers with
  | nil => simp [supplier_store_match] at h
  | cons name rest ih =>
    unfold supplier_store_match at h
    by_cases h1 : (name != "" && decide (3 < name.length)) = true
    · rw [if_pos h1] at h
      have hne : name ≠ "" := by
        have hpair := (Bool.and_eq_true _ _).mp h1
        simpa [bne_iff_ne] using hpair.1
      by_cases h2 : containsCI name.toList text.toList = true
      · rw [if_pos h2] at h
        exact (Option.some.inj h) ▸ hne
      · rw [if_neg h2] at h
        cases htake : (pySplit name.toList).take 2 with
        | nil => rw [htake] at h; exact ih h
        | cons w ws =>
          rw [htake] at h
          replace h : (if wordSearchCI w text.toList then some name
              else supplier_store_match rest text) = some n := h
          by_cases h3 : wordSearchCI w text.toList = true
          · rw [if_pos h3] at h
            exact (Option.some.inj h) ▸ hne
          · rw [if_neg h3] at h; exact ih h
    · rw [if_neg h1] at h; exact ih h

theorem scanOption_preserve {f : List Char → Option (List Char)}
    {P : List Char → Prop} (hf : ∀ l g, f l = some g → P g) :
    ∀ {l g}, scanOption f l = some g → P g := by
  intro l
  induction l with
  | nil =>
    intro g h
    exact hf [] g (by simpa [scanOption] using h)
  | cons c rest ih =>
    intro g h
    unfold scanOption at h
    cases hf2 : f (c :: rest) with
    | some g' =>
      rw [hf2] at h
      exact (Option.some.inj h) ▸ hf _ _ hf2
    | none =>
      rw [hf2] at h
      exact ih h

theorem pattern1Here_shape {l g : List Char} (h : pattern1Here l = some g) :
    ∃ c cs, g = c :: cs ∧ isUpperAZ c = true := by
  simp only [pattern1Here] at h
  split at h
  · simp at h
  · split at h
    · simp at h
    · split at h
      · simp at h
      · split at h
        · split at h
          · rename_i hupper _
            exact ⟨_, _, (Option.some.inj h).symm, hupper⟩
          · simp at h
        · simp at h

theorem pattern2Try_shape {c : Char} {rest : List Char} {n : Nat} {g : List Char}
    (h : pattern2Try c rest n = some g) : ∃ cs, g = c :: cs := by
  induction n with
  | zero => simp [pattern2Try] at h
  | succ m ih =>
    unfold pattern2Try at h
    split at h
    · exact ⟨_, (Option.some.inj h).symm⟩
    · exact ih h

theorem pattern2Here_shape {l g : List Char} (h : pattern2Here l = some g) :
    ∃ c cs, g = c :: cs ∧ isUpperAZ c = true := by
  unfold pattern2Here at h
  split at h
  · simp at h
  · rename_i c rest
    split at h
    · rename_i hupper
      obtain ⟨cs, rfl⟩ := pattern2Try_shape h
      exact ⟨c, cs, rfl, hupper⟩
    · simp at h

theorem not_pyIsSpace_of_isUpperAZ {c : Char} (h : isUpperAZ c = true) :
    pyIsSpace c = false := by
  cases hsp : pyIsSpace c with
  | false => rfl
  | true =>
    exfalso
    simp only [pyIsSpace, Bool.or_eq_true, beq_iff_eq] at hsp
    rcases hsp with ((((h1 | h1) | h1) | h1) | h1) | h1 <;> subst h1 <;>
      exact absurd h (by decide)

theorem pyStrip_ne_nil_of_head {c : Char} {l : List Char}
    (hc : pyIsSpace c = false) : pyStrip (c :: l) ≠ [] := by
  unfold pyStrip
  rw [List.dropWhile_cons]
  rw [if_neg (by simp [hc])]
  intro heq
  have hdw : ((c :: l).reverse).dropWhile pyIsSpace = [] :=
    List.reverse_eq_nil_iff.mp heq
  have hall := List.dropWhile_eq_nil_iff.mp hdw
  have hcmem : c ∈ (c :: l).reverse := by simp
  have := hall c hcmem
  rw [hc] at this
  exact Bool.false_ne_true this

theorem find_supplier_generic_ne_nil {text g : List Char}
    (h : find_supplier_generic text = some g) : g ≠ [] := by
  unfold find_supplier_generic at h
  cases h1 : pattern1Find text with
  | some g0 =>
    rw [h1] at h
    obtain ⟨c, cs, rfl, hup⟩ :=
      scanOption_preserve (fun _ _ hg => pattern1Here_shape hg) h1
    have hg : g = pyStrip (c :: cs) := (Option.some.inj h).symm
    rw [hg]
    exact pyStrip_ne_nil_of_head (not_pyIsSpace_of_isUpperAZ hup)
  | none =>
    rw [h1] at h
    cases h2 : pattern2Find text with
    | some g0 =>
      rw [h2] at h
      obtain ⟨c, cs, rfl, hup⟩ :=
        scanOption_preserve (fun _ _ hg => pattern2Here_shape hg) h2
      have hg : g = pyStrip (c :: cs) := (Option.some.inj h).symm
      rw [hg]
      exact pyStrip_ne_nil_of_head (not_pyIsSpace_of_isUpperAZ hup)
    | none => rw [h2] at h; simp at h

/-- C4: supplier resolution never produces a null or absent name: for every
reference store and every text (in particular an empty text, i.e. an empty
candidate), the resolved name is a non-empty string; and when neither a
store record nor a generic name pattern matches, the result is exactly the
sentinel `"Fournisseur Inconnu"`. -/
theorem find_supplier_never_absent (suppliers : List String) (text : String) :
    find_supplier_in_text suppliers text ≠ "" ∧
      (supplier_store_match suppliers text = none →
        find_supplier_generic text.toList = none →
        find_supplier_in_text suppliers text = "Fournisseur Inconnu") := by
  constructor
  · unfold find_supplier_in_text
    cases hm : supplier_store_match suppliers text with
    | some n => exact supplier_store_match_ne_empty hm
    | none =>
      cases hg : find_supplier_generic text.toList with
      | none => decide
      | some g =>
        have hgne := find_supplier_generic_ne_nil hg
        intro heq
        apply hgne
        have := congrArg String.data heq
        simpa using this
  · intro h1 h2
    simp [find_supplier_in_text, h1, show find_supplier_generic text.data = none from h2]

/-- Witness for C4 on the empty store and empty text: no match anywhere, so
the sentinel is returned. -/
theorem find_supplier_never_absent_witness :
    find_supplier_in_text [] "" = "Fournisseur Inconnu" ∧
      find_supplier_in_text [] "" ≠ "" :=
  ⟨(find_supplier_never_absent [] "").2 rfl rfl, (find_supplier_never_absent [] "").1⟩

/-- Invoice-number extraction of `_llm_extract_invoice_number`
(`llm_enhanced_extractor.py`).  The two regex cascades are abstracted by
their result (`patternResult`, a pure function of the text); lines 185-191
are the deterministic fallback `"INV-" + timestamp + "-" + md5(text)[:8]`,
with the hash function passed in as the pure function it is. -/
def llm_extract_invoice_number (patternResult : Option String) (timestamp : String)
    (md5hex : String → String) (text : String) : String :=
  match patternResult with
  | some n => n
  | none => "INV-" ++ timestamp ++ "-" ++ (md5hex text).take 8

/-- Amounts dictionary of the Swiss extractor `_extract_amounts`
(`swiss_invoice_extractor.py`): the three keys are always present (the dict
is initialised with them), each value optional — so the dictionary itself is
always truthy. -/
structure SwissAmounts where
  total_ttc : Option ℚ
  total_ht : Option ℚ
  tva : Option ℚ
  deriving DecidableEq, Repr

/-- Result dictionary of `SwissInvoiceExtractor.extract_invoice_data_with_db`
(`swiss_invoice_extractor.py`, lines 62-87). -/
structure DbData where
  invoice_number : Option String
  invoice_date : Option PyDate
  company_erp_code : Option String
  supplier_name : Option String
  currency_code : Option String
  amounts : SwissAmounts
  deriving DecidableEq, Repr

/-- The parts of the `InvoiceData` Pydantic model consumed by the invoice
service. -/
structure ExtractedInvoiceData where
  invoice : Option Invoice
  supplier : Option Supplier
  customer : Option Customer
  totals : Option Totals
  deriving DecidableEq, Repr

/-- The `InvoiceGoalDTO` of `src/api/invoice_models.py`, restricted to the
fields the service fills; generated UUIDs are modelled as abstract natural
tokens. -/
structure InvoiceGoalDTO where
  id : Nat
  invoice_id : Nat
  amount : ℚ
  deriving DecidableEq, Repr

/-- The `InvoiceDTO` of `src/api/invoice_models.py`, restricted to the
fields the service fills; the generated UUID is an abstract natural
token. -/
structure InvoiceDTO where
  id : Nat
  invoice_number : Option String
  invoice_date : Option PyDate
  company_erp_code : Option String
  supplier_name : Option String
  excluding_taxes : Option ℚ
  vat : Option ℚ
  including_taxes : Option ℚ
  payment_state : String
  currency_code : String
  completed : Bool
  draft : Bool
  invoice_goals : List InvoiceGoalDTO
  document_urls : List String
  deriving DecidableEq, Repr

/-- Function `_extract_invoice_number` of `invoice_service.py`. -/
def extract_invoice_number (d : ExtractedInvoiceData) : Option String :=
  match d.invoice with
  | some i => if truthyStr i.number then i.number else none
  | none => none

/-- Function `_extract_invoice_date` of `invoice_service.py` (the
string-typed date branch does not arise in the model, where dates are date
values). -/
def extract_invoice_date (d : ExtractedInvoiceData) : Option PyDate :=
  match d.invoice with
  | some i => i.date
  | none => none

/-- Function `_extract_supplier_name` of `invoice_service.py`. -/
def extract_supplier_name (d : ExtractedInvoiceData) : Option String :=
  match d.supplier with
  | some s => if truthyStr s.name then s.name else none
  | none => none

/-- Function `_extract_excluding_taxes` of `invoice_service.py`. -/
def extract_excluding_taxes (d : ExtractedInvoiceData) : Option ℚ :=
  match d.totals with
  | some t => if truthyQ t.subtotal_excl_vat then t.subtotal_excl_vat else none
  | none => none

/-- Function `_extract_vat` of `invoice_service.py`. -/
def extract_vat (d : ExtractedInvoiceData) : Option ℚ :=
  match d.totals with
  | some t => if truthyQ t.total_vat then t.total_vat else none
  | none => none

/-- Function `_extract_including_taxes` of `invoice_service.py`: the TTC if
truthy, else the amount due if truthy, else absent. -/
def extract_including_taxes (d : ExtractedInvoiceData) : Option ℚ :=
  match d.totals with
  | some t =>
    if truthyQ t.total_incl_vat then t.total_incl_vat
    else if truthyQ t.amount_due then t.amount_due
    else none
  | none => none

/-- Function `_extract_invoice_number_enhanced` of `invoice_service.py`:
database value first when truthy, then the extracted one. -/
def extract_invoice_number_enhanced (d : ExtractedInvoiceData)
    (db : Option DbData) : Option String :=
  match db with
  | some b => if truthyStr b.invoice_number then b.invoice_number
      else extract_invoice_number d
  | none => extract_invoice_number d

/-- Function `_extract_invoice_date_enhanced` of `invoice_service.py`. -/
def extract_invoice_date_enhanced (d : ExtractedInvoiceData)
    (db : Option DbData) : Option PyDate :=
  match db with
  | some b => if b.invoice_date.isSome then b.invoice_date
      else extract_invoice_date d
  | none => extract_invoice_date d

/-- Function `_extract_supplier_name_enhanced` of `invoice_service.py`. -/
def extract_supplier_name_enhanced (d : ExtractedInvoiceData)
    (db : Option DbData) : Option String :=
  match db with
  | some b => if truthyStr b.supplier_name then b.supplier_name
      else extract_supplier_name d
  | none => extract_supplier_name d

/-- Function `_extract_company_enhanced` of `invoice_service.py`: database
ERP code first, then the extracted customer name, else absent. -/
def extract_company_enhanced (d : ExtractedInvoiceData)
    (db : Option DbData) : Option String :=
  let fallback : Option String :=
    match d.customer with
    | some c => if truthyStr c.name then c.name else none
    | none => none
  match db with
  | some b => if truthyStr b.company_erp_code then b.company_erp_code else fallback
  | none => fallback

/-- Function `_extract_currency_enhanced` of `invoice_service.py`: database
currency first, then the extracted one, defaulting to `"EUR"`. -/
def extract_currency_enhanced (d : ExtractedInvoiceData)
    (db : Option DbData) : String :=
  let fallback : String :=
    match d.invoice with
    | some i => if truthyStr i.currency then i.currency.getD "EUR" else "EUR"
    | none => "EUR"
  match db with
  | some b => if truthyStr b.currency_code then b.currency_code.getD "EUR" else fallback
  | none => fallback

/-- Function `_extract_amounts_enhanced` of `invoice_service.py`: database
amounts first (the Swiss amounts dictionary is always truthy, see
`SwissAmounts`), then each non-truthy slot falls back to the extracted
data. -/
def extract_amounts_enhanced (d : ExtractedInvoiceData) (db : Option DbData) :
    Option ℚ × Option ℚ × Option ℚ :=
  let fromDb : Option ℚ × Option ℚ × Option ℚ :=
    match db with
    | some b => (b.amounts.total_ht, b.amounts.tva, b.amounts.total_ttc)
    | none => (none, none, none)
  let excluding_taxes := if truthyQ fromDb.1 then fromDb.1 else extract_excluding_taxes d
  let vat := if truthyQ fromDb.2.1 then fromDb.2.1 else extract_vat d
  let including_taxes := if truthyQ fromDb.2.2 then fromDb.2.2
    else extract_including_taxes d
  (excluding_taxes, vat, including_taxes)

/-- Local `amount` of `_create_invoice_goals_dto_only_enhanced`
(`invoice_service.py`): the enhanced TTC when truthy, otherwise the
extracted TTC when present and truthy. -/
def goal_amount (d : ExtractedInvoiceData) (including_taxes : Option ℚ) : Option ℚ :=
  if truthyQ including_taxes then including_taxes
  else
    match d.totals with
    | some t => if truthyQ t.total_incl_vat then t.total_incl_vat else including_taxes
    | none => including_taxes

/-- Function `_create_invoice_goals_dto_only_enhanced` of
`invoice_service.py`: one goal carrying the full TTC amount when a truthy
amount exists, none otherwise. -/
def create_invoice_goals_dto_only_enhanced (invoice_id goal_id : Nat)
    (d : ExtractedInvoiceData) (including_taxes : Option ℚ) : List InvoiceGoalDTO :=
  if truthyQ (goal_amount d including_taxes) then
    [{ id := goal_id, invoice_id := invoice_id
       amount := (goal_amount d including_taxes).getD 0 }]
  else []

/-- Function `create_invoice_from_extracted_data` of `invoice_service.py`
(lines 26-83): assembles the DTO from the enhanced extractors; the two
generated UUIDs (invoice and goal identities) enter as the abstract tokens
`invoice_id` and `goal_id`. -/
def create_invoice_from_extracted_data (d : ExtractedInvoiceData) (db : Option DbData)
    (filename : Option String) (invoice_id goal_id : Nat) : InvoiceDTO :=
  let amounts := extract_amounts_enhanced d db
  { id := invoice_id
    invoice_number := extract_invoice_number_enhanced d db
    invoice_date := extract_invoice_date_enhanced d db
    company_erp_code := extract_company_enhanced d db
    supplier_name := extract_supplier_name_enhanced d db
    excluding_taxes := amounts.1
    vat := amounts.2.1
    including_taxes := amounts.2.2
    payment_state := "DRAFT"
    currency_code := extract_currency_enhanced d db
    completed := false
    draft := true
    invoice_goals := create_invoice_goals_dto_only_enhanced invoice_id goal_id d amounts.2.2
    document_urls :=
      match filename with
      | some f => if f != "" then [f] else []
      | none => [] }

/-- Swiss supplier-row details consumed by `_build_complete_invoice_data`. -/
structure SupplierDetails where
  rcs : Option String
  address : Option String
  email : Option String
  phone_number : Option String
  deriving DecidableEq, Repr

/-- Function `_build_complete_invoice_data` of `llm_enhanced_extractor.py`
(lines 475-553), restricted to the fields the service consumes: every
monetary field of the totals defaults to `0.00` when absent and the amount
due duplicates the TTC. -/
def build_complete_invoice_data (invoice_number : String) (dates : DatesDict)
    (currency : String) (supplier_name : String)
    (supplier_details : Option SupplierDetails) (company_erp : String)
    (company_address : Option String) (amounts : LlmAmounts) : ExtractedInvoiceData :=
  { invoice := some { number := some invoice_number
                      date := dates.invoice_date
                      due_date := dates.due_date
                      currency := some currency
                      payment_terms := none }
    supplier := some { name := some supplier_name
                       address := supplier_details.bind (fun s => s.address)
                       siret := supplier_details.bind (fun s => s.rcs)
                       vat_number := none }
    customer := some { name := some company_erp
                       address := company_address
                       customer_id := none }
    totals := some { subtotal_excl_vat := some (amounts.total_ht.getD 0)
                     total_vat := some (amounts.tva.getD 0)
                     total_incl_vat := some (amounts.total_ttc.getD 0)
                     amount_due := some (amounts.total_ttc.getD 0) } }

/-- End-to-end LLM document-processing pipeline feeding the invoice
service.  Inputs that the source derives purely from the raw text and the
reference-store snapshot (regex capture results, found dates, raw amounts,
currency, store rows) enter as parameters, identical across runs on the
same text and store; the wall clock (`ts`, `today`) is a parameter, and the
two generated UUIDs are the trailing identity tokens. -/
def llm_process_document (store : List String) (text : String)
    (patternNumber : Option String) (ts : String) (md5hex : String → String)
    (foundDates : List PyDate) (today : PyDate) (rawAmounts : LlmAmounts)
    (currency : String) (supplier_details : Option SupplierDetails)
    (company_erp : String) (company_address : Option String)
    (db : Option DbData) (filename : Option String)
    (invoice_id goal_id : Nat) : InvoiceDTO :=
  let number := llm_extract_invoice_number patternNumber ts md5hex text
  let dates := intelligent_validation_dates (llm_extract_dates_assign foundDates today)
  let amounts := intelligent_validation_amounts (llm_deduce_missing_amounts rawAmounts)
  let supplier := find_supplier_in_text store text
  let d := build_complete_invoice_data number dates currency supplier
    supplier_details company_erp company_address amounts
  create_invoice_from_extracted_data d db filename invoice_id goal_id

theorem goals_amounts_ignore_ids (id1 g1 id2 g2 : Nat) (d : ExtractedInvoiceData)
    (inc : Option ℚ) :
    (create_invoice_goals_dto_only_enhanced id1 g1 d inc).map (fun x => x.amount) =
      (create_invoice_goals_dto_only_enhanced id2 g2 d inc).map (fun x => x.amount) := by
  simp only [create_invoice_goals_dto_only_enhanced]
  by_cases h : truthyQ (goal_amount d inc) = true <;> simp [h]

/-- C6: two runs of the pipeline on identical raw text, reference-store
snapshot and clock, differing only in the generated identities, agree on
every output field except the identities themselves (the invoice id and the
goal ids, into which the invoice id is also copied).  In particular the
fallback invoice number, derived from the timestamp and the text hash only,
is identical across the runs. -/
theorem llm_process_document_deterministic (store : List String) (text : String)
    (patternNumber : Option String) (ts : String) (md5hex : String → String)
    (foundDates : List PyDate) (today : PyDate) (rawAmounts : LlmAmounts)
    (currency : String) (supplier_details : Option SupplierDetails)
    (company_erp : String) (company_address : Option String)
    (db : Option DbData) (filename : Option String) (id1 g1 id2 g2 : Nat) :
    let a := llm_process_document store text patternNumber ts md5hex foundDates today
      rawAmounts currency supplier_details company_erp company_address db filename id1 g1
    let b := llm_process_document store text patternNumber ts md5hex foundDates today
      rawAmounts currency supplier_details company_erp company_address db filename id2 g2
    a.invoice_number = b.invoice_number ∧ a.invoice_date = b.invoice_date ∧
      a.company_erp_code = b.company_erp_code ∧ a.supplier_name = b.supplier_name ∧
      a.excluding_taxes = b.excluding_taxes ∧ a.vat = b.vat ∧
      a.including_taxes = b.including_taxes ∧ a.payment_state = b.payment_state ∧
      a.currency_code = b.currency_code ∧ a.completed = b.completed ∧
      a.draft = b.draft ∧ a.document_urls = b.document_urls ∧
      a.invoice_goals.map (fun x => x.amount) = b.invoice_goals.map (fun x => x.amount) := by
  refine ⟨rfl, rfl, rfl, rfl, rfl, rfl, rfl, rfl, rfl, rfl, rfl, rfl, ?_⟩
  exact goals_amounts_ignore_ids id1 g1 id2 g2 _ _

end OCR
